import Mathlib

/-!
Verification of the real-time audio engine of the PedalBoard repository
(src/audio_engine.py), shallowly embedded in Lean 4.

Audio samples (numpy float32) are modelled as rationals; a stereo frame is a
pair of samples and an AudioBlock is a list of frames.  External pedalboard
effect stages are modelled as functions from blocks to blocks that may fail
(a Python exception is an `Except.error`).  The embedding follows the control
flow of the Python source line by line.
-/

namespace PedalBoard

/-- Stereo frame: one sample per channel, as in the stereo (2-channel) streams
opened by the sessions. -/
abbrev Frame : Type := ℚ × ℚ

/-- AudioBlock: the chunk of audio handed to one callback invocation. -/
abbrev Block : Type := List Frame

/-- Peak absolute amplitude of a block, as computed by np.max(np.abs(data));
0 for the empty block. -/
def peak (b : Block) : ℚ :=
  (b.map (fun f => max |f.1| |f.2|)).foldr max 0

/-- One effect stage of a pedalboard chain: an external DSP routine that maps
a block to a block and may raise a Python exception. -/
abbrev Stage : Type := Block → Except String Block

/-- Runs a block through every stage of the board in order, stage i feeding
stage i+1; the first exception aborts the run.  This is the call
self.board(audio_chunk.T, self.samplerate, reset=False) of line 125. -/
def run_board : List Stage → Block → Except String Block
  | [], b => Except.ok b
  | s :: rest, b => (s b).bind (run_board rest)

/-- RealTimeAudioProcessor.process_chunk (audio_engine.py lines 115-135):
if the board is non-empty, run the chunk through the board and then the
safety limiter inside a try block, returning the input chunk on any
exception; if the board is empty, return the input chunk directly.
The dtype conversion of lines 119-120 is the identity in this model. -/
def process_chunk (board : List Stage) (safety_limiter : Stage)
    (audio_chunk : Block) : Block :=
  if board.length > 0 then
    match (run_board board audio_chunk).bind safety_limiter with
    | Except.ok processed => processed
    | Except.error _ => audio_chunk
  else audio_chunk

/-- Clamp a sample into the interval from -c to c. -/
def clampAbs (c x : ℚ) : ℚ := max (-c) (min c x)

/-- Modelled from the spec: the safety limiter is the external pedalboard
Limiter(threshold_db = -1.0, release_ms = 100.0) of audio_engine.py line 99,
whose DSP is outside this repository.  The spec describes it as a fixed final
stage preventing output clipping, keeping the output peak at or below its
threshold; -1 dB is the linear amplitude 10 ^ (-1/20), approximately
891/1000.  It is modelled as a hard clip at 891/1000. -/
def safety_limiter_model : Stage :=
  fun b => Except.ok (b.map (fun f => (clampAbs (891/1000) f.1, clampAbs (891/1000) f.2)))

/-- Effect definitions of audio_engine.py lines 23-81: for each effect kind,
its recognized parameters with (min, max, default). -/
def EFFECTS : List (String × List (String × ℚ × ℚ × ℚ)) :=
  [("Chorus",
     [("rate_hz", (1/10, 10, 1)), ("depth", (0, 1, 1/4)),
      ("centre_delay_ms", (1, 50, 7)), ("feedback", (0, 1, 0)),
      ("mix", (0, 1, 1/2))]),
   ("Distortion", [("drive_db", (0, 40, 10))]),
   ("Phaser",
     [("rate_hz", (1/10, 10, 1)), ("depth", (0, 1, 1/2)),
      ("centre_frequency_hz", (200, 12000, 1300)), ("feedback", (0, 1, 0)),
      ("mix", (0, 1, 1/2))]),
   ("Clipping", [("threshold_db", (-60, 0, -6))]),
   ("Compressor",
     [("threshold_db", (-60, 0, -20)), ("ratio", (1, 20, 4)),
      ("attack_ms", (1/10, 100, 5)), ("release_ms", (10, 1000, 100))]),
   ("Gain", [("gain_db", (-60, 60, 0))]),
   ("Limiter", [("threshold_db", (-60, 0, -3)), ("release_ms", (10, 1000, 100))]),
   ("HighpassFilter", [("cutoff_frequency_hz", (20, 20000, 440))]),
   ("LowpassFilter", [("cutoff_frequency_hz", (20, 20000, 5000))]),
   ("Delay",
     [("delay_seconds", (0, 2, 1/2)), ("feedback", (0, 1, 3/10)),
      ("mix", (0, 1, 1/2))]),
   ("Reverb",
     [("room_size", (0, 1, 1/2)), ("damping", (0, 1, 1/2)),
      ("wet_level", (0, 1, 33/100)), ("dry_level", (0, 1, 7/10)),
      ("width", (0, 1, 1))]),
   ("PitchShift", [("semitones", (-12, 12, 0))]),
   ("Bitcrush", [("bit_depth", (1, 32, 8))])]

/-- Keys of RealTimeAudioProcessor.EFFECT_MAP (audio_engine.py lines 87-93):
the fixed closed set of effect kinds the chain builder recognizes. -/
def EFFECT_MAP_keys : List String :=
  ["Chorus", "Distortion", "Phaser", "Clipping", "Compressor", "Gain",
   "Limiter", "HighpassFilter", "LowpassFilter", "Delay", "Reverb",
   "PitchShift", "Bitcrush"]

/-- Clamp x into the closed interval from lo to hi. -/
def clamp (lo hi x : ℚ) : ℚ := max lo (min hi x)

/-- Declared (min, max) range of a parameter of an effect kind, from EFFECTS. -/
def paramRange (effect param : String) : Option (ℚ × ℚ) :=
  match (EFFECTS.lookup effect).bind (fun ps => ps.lookup param) with
  | some (lo, hi, _) => some (lo, hi)
  | none => none

/-- One entry of the effect_configs list handed to update_effects:
a kind name plus a parameter assignment. -/
structure EffectConfig where
  name : String
  parameters : List (String × ℚ)
deriving DecidableEq, Repr

/-- An installed effect stage: the constructed external effect object,
identified by its kind and the parameter values its constructor received
(effect_class(**effect_config["parameters"]), audio_engine.py line 110). -/
abbrev Effect : Type := String × List (String × ℚ)

/-- The chain-construction loop of update_effects (audio_engine.py
lines 107-111): look each config name up in EFFECT_MAP (a missing key raises
KeyError, modelled as Except.error naming the unknown kind) and construct the
effect with exactly the given parameter values, appending it to the new
board.  No clamping or range validation is performed anywhere in this loop. -/
def build_board : List EffectConfig → Except String (List Effect)
  | [] => Except.ok []
  | cfg :: rest =>
      if EFFECT_MAP_keys.contains cfg.name then
        (build_board rest).map (fun tail => (cfg.name, cfg.parameters) :: tail)
      else Except.error cfg.name

/-- Engine chain state: the board field of RealTimeAudioProcessor. -/
structure Engine where
  board : List Effect
deriving DecidableEq, Repr

/-- RealTimeAudioProcessor.update_effects (audio_engine.py lines 104-113) as
a state transition: build the new board from the configs; on success assign
it to self.board, on a KeyError the assignment of line 113 is never reached
and the exception propagates, leaving the installed chain unchanged. -/
def Engine.update (e : Engine) (configs : List EffectConfig) :
    Engine × Except String Unit :=
  match build_board configs with
  | Except.ok new_board => ({ board := new_board }, Except.ok ())
  | Except.error n => (e, Except.error n)

/-- Events of one update_effects call, for stating which work happens while
the engine lock is held. -/
inductive Ev where
  | acquire
  | construct (name : String)
  | swap
  | release
deriving DecidableEq, Repr

/-- Event trace of update_effects (audio_engine.py lines 104-113): the with
statement of line 106 acquires the lock first, then the loop of lines
108-111 constructs every effect of the new chain, then line 113 swaps the
board handle, then the with statement releases the lock. -/
def update_effects_trace (configs : List EffectConfig) : List Ev :=
  Ev.acquire :: (configs.map (fun c => Ev.construct c.name) ++ [Ev.swap, Ev.release])

/-- Events performed while the lock is held: those after the first acquire
and before the next release. -/
def eventsInsideLock (t : List Ev) : List Ev :=
  ((t.dropWhile (fun e => !(e == Ev.acquire))).drop 1).takeWhile
    (fun e => !(e == Ev.release))

/-- Normalization pass of FilePlaybackSession.load_file (audio_engine.py
lines 209-223), applied to the sample buffer returned by the external file
reader: with max_val the peak absolute amplitude, if max_val exceeds 1.0 the
whole buffer is scaled by data / max_val * 0.5; otherwise if max_val exceeds
0.8 the same scale is applied; otherwise the buffer is left unchanged. -/
def load_file (data : Block) : Block :=
  let max_val := peak data
  if max_val > 1 then
    data.map (fun f => (f.1 / max_val * (1/2), f.2 / max_val * (1/2)))
  else if max_val > 4/5 then
    data.map (fun f => (f.1 / max_val * (1/2), f.2 / max_val * (1/2)))
  else data

/-- np.concatenate along axis 0: the blocks joined head to tail in order. -/
def np_concatenate : List Block → Block
  | [] => []
  | c :: cs => c ++ np_concatenate cs

/-- RealTimeAudioProcessor.save_recording (audio_engine.py lines 137-147):
if recorded_chunks is non-empty, concatenate the chunks and write the result
to the file at the engine sample rate, returning True; if empty, return
False and write nothing.  The external sf.write is modelled as returning the
written content (samples, samplerate); None means no file was written. -/
def save_recording (samplerate : ℕ) (recorded_chunks : List Block) :
    Bool × Option (Block × ℕ) :=
  if recorded_chunks.isEmpty then (false, none)
  else (true, some (np_concatenate recorded_chunks, samplerate))

/-- Mutable state of a FilePlaybackSession visible to its audio callback:
the running flag, the playback cursor, the loaded buffer, and the engine
accumulation list recorded_chunks. -/
structure PBState where
  is_running : Bool
  current_frame : ℕ
  audio_data : Block
  recorded : List Block
deriving DecidableEq, Repr

/-- Silent output: np.zeros((frames, 2)). -/
def zeros (frames : ℕ) : Block := List.replicate frames ((0 : ℚ), (0 : ℚ))

/-- State after FilePlaybackSession.start has reset the session
(audio_engine.py lines 234-237): running, cursor 0, accumulation cleared. -/
def start_state (data : Block) : PBState :=
  { is_running := true, current_frame := 0, audio_data := data, recorded := [] }

/-- One invocation of the playback audio_callback (audio_engine.py lines
239-261) given the engine board and safety limiter.  Returns the new session
state and the block written to outdata.  If running and the cursor is before
the end of the buffer: slice the next window, zero-pad a short final window
to the requested frame count, process it, append only the valid prefix of
the processed window to the accumulation, write the full processed window to
outdata, advance the cursor, and clear the running flag when the cursor
reaches the buffer end.  Otherwise write silence, clearing the running flag
when the cursor has reached the buffer end. -/
def audio_callback (board : List Stage) (safety_limiter : Stage)
    (s : PBState) (frames : ℕ) : PBState × Block :=
  if s.is_running = true ∧ s.current_frame < s.audio_data.length then
    let end_frame := min (s.current_frame + frames) s.audio_data.length
    let chunk := (s.audio_data.drop s.current_frame).take (end_frame - s.current_frame)
    let chunk := if chunk.length < frames then chunk ++ zeros (frames - chunk.length) else chunk
    let processed := process_chunk board safety_limiter chunk
    ({ s with
        current_frame := end_frame,
        recorded := s.recorded ++ [processed.take (end_frame - s.current_frame)],
        is_running := if s.audio_data.length ≤ end_frame then false else s.is_running },
     processed)
  else
    ({ s with
        is_running := if s.audio_data.length ≤ s.current_frame then false else s.is_running },
     zeros frames)

/-- A stage that raises: models a Python exception inside the board call. -/
def failing_stage : Stage := fun _ => Except.error "boom"

/-- Concatenation distributes as the flatten of the chunk list. -/
theorem np_concatenate_eq_flatten (l : List Block) :
    np_concatenate l = l.flatten := by
  induction l with
  | nil => rfl
  | cons c cs ih => simp [np_concatenate, ih]

/-- C1 counterexample: with an empty board, process_chunk returns the input
block without invoking the safety limiter at all, so a block of peak 2
(above any sub-unity limiter ceiling; the -1 dB threshold is below linear
1) comes out with peak 2, refuting that the output peak is bounded by the
limiter threshold. -/
theorem process_chunk_empty_chain_cex :
    process_chunk [] safety_limiter_model [((2 : ℚ), 2)] = [((2 : ℚ), 2)] ∧
    peak [((2 : ℚ), 2)] = 2 ∧
    ¬ peak (process_chunk [] safety_limiter_model [((2 : ℚ), 2)]) ≤ 1 := by
  refine ⟨rfl, by decide, by decide⟩

/-- C1 (amended): with an empty effect chain, process_chunk returns the
input unchanged and the safety limiter is not applied, whatever the limiter
stage does; in particular the output peak equals the input peak. -/
theorem process_chunk_empty_chain (safety_limiter : Stage) (chunk : Block) :
    process_chunk [] safety_limiter chunk = chunk ∧
    peak (process_chunk [] safety_limiter chunk) = peak chunk :=
  ⟨rfl, rfl⟩

/-- C3: if processing the block through the board and safety limiter ends in
an exception, process_chunk catches it and returns the pre-effect input
block unchanged; being a total function into Block, process_chunk never
propagates an exception to the callback. -/
theorem process_chunk_catches_exceptions (board : List Stage)
    (safety_limiter : Stage) (chunk : Block) (e : String)
    (h : (run_board board chunk).bind safety_limiter = Except.error e) :
    process_chunk board safety_limiter chunk = chunk := by
  unfold process_chunk
  split
  · rw [h]
  · rfl

/-- Witness for C3 at a concrete failing stage and block. -/
theorem process_chunk_catches_exceptions_witness :
    (run_board [failing_stage] [((1 : ℚ), 2)]).bind safety_limiter_model =
      Except.error "boom" ∧
    process_chunk [failing_stage] safety_limiter_model [((1 : ℚ), 2)] =
      [((1 : ℚ), 2)] :=
  ⟨rfl, process_chunk_catches_exceptions [failing_stage] safety_limiter_model
    [((1 : ℚ), 2)] "boom" rfl⟩

/-- C6: with a non-empty accumulation list, save_recording reports success
and writes a file whose sample content is the concatenation of the
accumulated blocks in order at the engine sample rate. -/
theorem save_recording_writes_concat (samplerate : ℕ)
    (recorded_chunks : List Block) (h : recorded_chunks ≠ []) :
    save_recording samplerate recorded_chunks =
      (true, some (recorded_chunks.flatten, samplerate)) := by
  unfold save_recording
  rw [if_neg (by simpa [List.isEmpty_iff] using h), np_concatenate_eq_flatten]

/-- Witness for C6 at concrete blocks A, B, C. -/
theorem save_recording_writes_concat_witness :
    save_recording 44100
        [[((1 : ℚ), 0)], [((0 : ℚ), 1), ((2 : ℚ), 2)], [((3 : ℚ), 3)]] =
      (true, some ([((1 : ℚ), 0), ((0 : ℚ), 1), ((2 : ℚ), 2), ((3 : ℚ), 3)], 44100)) :=
  save_recording_writes_concat 44100
    [[((1 : ℚ), 0)], [((0 : ℚ), 1), ((2 : ℚ), 2)], [((3 : ℚ), 3)]] (by decide)

/-- C7: save_recording on an empty accumulation list returns False to the
caller (no exception) and writes no file. -/
theorem save_recording_empty (samplerate : ℕ) :
    save_recording samplerate [] = (false, none) := rfl

/-- Chain construction succeeds with every effect receiving exactly the
parameter values of its config whenever all kind names are known. -/
theorem build_board_ok_of_known (configs : List EffectConfig)
    (h : ∀ cfg ∈ configs, EFFECT_MAP_keys.contains cfg.name = true) :
    build_board configs =
      Except.ok (configs.map (fun c => (c.name, c.parameters))) := by
  induction configs with
  | nil => rfl
  | cons c cs ih =>
    have hc : EFFECT_MAP_keys.contains c.name = true := h c (List.mem_cons_self c cs)
    have ih' := ih (fun cfg hm => h cfg (List.mem_cons_of_mem c hm))
    simp only [build_board, List.map_cons]
    rw [if_pos hc, ih']
    rfl

/-- C2 counterexample: the declared range of the gain_db parameter of Gain
is [-60, 60] and 100 lies outside it, yet chain construction succeeds with
the effect receiving the raw value 100, not the clamped value 60: no
clamping is performed by update_effects. -/
theorem update_effects_no_clamp_cex :
    paramRange "Gain" "gain_db" = some (-60, 60) ∧
    build_board [⟨"Gain", [("gain_db", 100)]⟩] =
      Except.ok [("Gain", [("gain_db", (100 : ℚ))])] ∧
    clamp (-60) 60 100 = 60 ∧
    ((100 : ℚ), (60 : ℚ)).1 ≠ ((100 : ℚ), (60 : ℚ)).2 := by
  refine ⟨by decide, rfl, by decide, by decide⟩

/-- C2 (amended): for configs whose kind names are all recognized, chain
construction succeeds and each effect receives exactly the parameter values
given in its config, including values outside the declared [min, max] range;
update_effects neither clamps nor rejects out-of-range values. -/
theorem update_effects_params_unclamped (e : Engine) (configs : List EffectConfig)
    (h : ∀ cfg ∈ configs, EFFECT_MAP_keys.contains cfg.name = true) :
    e.update configs =
      ({ board := configs.map (fun c => (c.name, c.parameters)) }, Except.ok ()) := by
  unfold Engine.update
  rw [build_board_ok_of_known configs h]

/-- Witness for C2 (amended) at a config whose gain_db value 100 exceeds the
declared maximum 60: the installed effect carries 100 unchanged. -/
theorem update_effects_params_unclamped_witness :
    Engine.update ⟨[]⟩ [⟨"Gain", [("gain_db", 100)]⟩] =
      ({ board := [("Gain", [("gain_db", (100 : ℚ))])] }, Except.ok ()) :=
  update_effects_params_unclamped ⟨[]⟩ [⟨"Gain", [("gain_db", 100)]⟩] (by decide)

/-- Chain construction fails whenever some config names an unknown kind. -/
theorem build_board_error_of_unknown (configs : List EffectConfig)
    (h : ∃ cfg ∈ configs, EFFECT_MAP_keys.contains cfg.name = false) :
    ∃ n, build_board configs = Except.error n := by
  induction configs with
  | nil => simp at h
  | cons c cs ih =>
    by_cases hc : EFFECT_MAP_keys.contains c.name = true
    · obtain ⟨cfg, hmem, hk⟩ := h
      rcases List.mem_cons.mp hmem with hceq | hmem
      · subst hceq
        rw [hk] at hc
        exact absurd hc (by decide)
      · obtain ⟨n, hn⟩ := ih ⟨cfg, hmem, hk⟩
        refine ⟨n, ?_⟩
        simp only [build_board]
        rw [if_pos hc, hn]
        rfl
    · refine ⟨c.name, ?_⟩
      simp only [build_board]
      rw [if_neg hc]

/-- C8: if any config names a kind outside the fixed closed set of thirteen,
update_effects fails with an error naming an unknown kind and the installed
chain of the engine is left unchanged. -/
theorem update_effects_unknown_kind (e : Engine) (configs : List EffectConfig)
    (h : ∃ cfg ∈ configs, EFFECT_MAP_keys.contains cfg.name = false) :
    (∃ n, (e.update configs).2 = Except.error n) ∧ (e.update configs).1 = e := by
  obtain ⟨n, hn⟩ := build_board_error_of_unknown configs h
  unfold Engine.update
  rw [hn]
  exact ⟨⟨n, rfl⟩, rfl⟩

/-- Witness for C8: a config list containing the unknown kind Flanger fails
and leaves the previously installed Gain chain in place. -/
theorem update_effects_unknown_kind_witness :
    (∃ n, (Engine.update ⟨[("Gain", [])]⟩ [⟨"Flanger", []⟩]).2 = Except.error n) ∧
    (Engine.update ⟨[("Gain", [])]⟩ [⟨"Flanger", []⟩]).1 = ⟨[("Gain", [])]⟩ :=
  update_effects_unknown_kind ⟨[("Gain", [])]⟩ [⟨"Flanger", []⟩]
    ⟨⟨"Flanger", []⟩, by decide, by decide⟩

/-- C4 counterexample: already for a single-effect config list, the events
performed while the engine lock is held are the effect construction followed
by the swap, not the swap alone: the chain is constructed inside the lock. -/
theorem update_effects_lock_cex :
    eventsInsideLock (update_effects_trace [⟨"Gain", []⟩]) ≠ [Ev.swap] ∧
    eventsInsideLock (update_effects_trace [⟨"Gain", []⟩]) =
      [Ev.construct "Gain", Ev.swap] := by
  refine ⟨by decide, rfl⟩

/-- C4 (amended): in update_effects the whole construction of the new chain
happens inside the lock: the events performed while the lock is held are the
construction of every configured effect followed by the board swap. -/
theorem update_effects_construct_inside_lock (configs : List EffectConfig) :
    eventsInsideLock (update_effects_trace configs) =
      configs.map (fun c => Ev.construct c.name) ++ [Ev.swap] := by
  unfold eventsInsideLock update_effects_trace
  rw [List.dropWhile_cons]
  simp only [beq_self_eq_true, Bool.not_true, Bool.false_eq_true, if_false,
    List.drop_succ_cons, List.drop_zero]
  induction configs with
  | nil => rfl
  | cons c cs ih => simp [List.takeWhile_cons, ih]

/-- Scaling every sample of a block by a nonnegative factor scales the peak
by the same factor. -/
theorem peak_map_scale (c : ℚ) (hc : 0 ≤ c) (b : Block) :
    peak (b.map (fun f => (f.1 * c, f.2 * c))) = peak b * c := by
  unfold peak
  induction b with
  | nil => simp
  | cons f rest ih =>
    simp only [List.map_cons, List.foldr_cons] at *
    rw [ih, abs_mul, abs_mul, abs_of_nonneg hc,
      ← max_mul_of_nonneg _ _ hc, ← max_mul_of_nonneg _ _ hc]

/-- Dividing by a positive peak and halving yields a block of peak 1/2. -/
theorem peak_load_scale (data : Block) (hp : 0 < peak data) :
    peak (data.map (fun f =>
      (f.1 / peak data * (1/2), f.2 / peak data * (1/2)))) = 1/2 := by
  have hne : peak data ≠ 0 := ne_of_gt hp
  have hfun : (fun f : Frame => (f.1 / peak data * (1/2), f.2 / peak data * (1/2)))
      = (fun f : Frame => (f.1 * (1 / (2 * peak data)), f.2 * (1 / (2 * peak data)))) := by
    funext f
    have e : ∀ x : ℚ, x / peak data * (1/2) = x * (1 / (2 * peak data)) := by
      intro x
      simp only [div_eq_mul_inv, one_div, mul_inv]
      ring
    rw [e f.1, e f.2]
  rw [hfun, peak_map_scale (1 / (2 * peak data)) (by positivity) data]
  field_simp
  ring

/-- C5: the normalization pass of load_file scales a buffer of peak above 1
down to peak exactly 1/2, scales a buffer of peak in (4/5, 1] down to peak
exactly 1/2 by the same factor, and leaves a buffer of peak at most 4/5
unchanged. -/
theorem load_file_normalization (data : Block) :
    (1 < peak data → peak (load_file data) = 1/2) ∧
    (4/5 < peak data → peak data ≤ 1 → peak (load_file data) = 1/2) ∧
    (peak data ≤ 4/5 → load_file data = data) := by
  refine ⟨?_, ?_, ?_⟩
  · intro h
    unfold load_file
    rw [if_pos h]
    exact peak_load_scale data (lt_trans one_pos h)
  · intro h1 h2
    unfold load_file
    rw [if_neg (not_lt.mpr h2), if_pos h1]
    exact peak_load_scale data (lt_trans (by norm_num) h1)
  · intro h
    unfold load_file
    rw [if_neg (not_lt.mpr (le_trans h (by norm_num))),
      if_neg (not_lt.mpr h)]

/-- Witness for C5 at buffers of peak 3/2, 9/10 and 3/10. -/
theorem load_file_normalization_witness :
    ((1 : ℚ) < peak [((3/2 : ℚ), 0)] ∧ peak (load_file [((3/2 : ℚ), 0)]) = 1/2) ∧
    ((4/5 : ℚ) < peak [((9/10 : ℚ), 0)] ∧ peak [((9/10 : ℚ), 0)] ≤ 1 ∧
      peak (load_file [((9/10 : ℚ), 0)]) = 1/2) ∧
    (peak [((3/10 : ℚ), 0)] ≤ 4/5 ∧ load_file [((3/10 : ℚ), 0)] = [((3/10 : ℚ), 0)]) :=
  ⟨⟨by norm_num [peak, abs_of_pos],
     (load_file_normalization [((3/2 : ℚ), 0)]).1 (by norm_num [peak, abs_of_pos])⟩,
   ⟨by norm_num [peak, abs_of_pos], by norm_num [peak, abs_of_pos],
     (load_file_normalization [((9/10 : ℚ), 0)]).2.1
       (by norm_num [peak, abs_of_pos]) (by norm_num [peak, abs_of_pos])⟩,
   ⟨by norm_num [peak, abs_of_pos],
     (load_file_normalization [((3/10 : ℚ), 0)]).2.2 (by norm_num [peak, abs_of_pos])⟩⟩

/-- C9: when the session is running, the cursor is inside the buffer, and
the requested frame count exceeds the frames remaining, the callback
zero-pads the final window to the requested length, processes it, writes
the full processed window to the output, appends only the valid
(non-padded) prefix of the processed window to the accumulation, and
advances the cursor to the buffer end (clearing the running flag). -/
theorem playback_final_window (board : List Stage) (limiter : Stage)
    (s : PBState) (frames : ℕ)
    (h1 : s.is_running = true) (h2 : s.current_frame < s.audio_data.length)
    (h3 : s.audio_data.length < s.current_frame + frames) :
    ((s.audio_data.drop s.current_frame) ++
        zeros (frames - (s.audio_data.length - s.current_frame))).length = frames ∧
    audio_callback board limiter s frames =
      ({ s with
          current_frame := s.audio_data.length,
          recorded := s.recorded ++
            [(process_chunk board limiter
                ((s.audio_data.drop s.current_frame) ++
                  zeros (frames - (s.audio_data.length - s.current_frame)))).take
              (s.audio_data.length - s.current_frame)],
          is_running := false },
       process_chunk board limiter
         ((s.audio_data.drop s.current_frame) ++
           zeros (frames - (s.audio_data.length - s.current_frame)))) := by
  have hend : min (s.current_frame + frames) s.audio_data.length = s.audio_data.length :=
    Nat.min_eq_right (Nat.le_of_lt h3)
  have hdroplen : (s.audio_data.drop s.current_frame).length =
      s.audio_data.length - s.current_frame := List.length_drop _ _
  have htake : (s.audio_data.drop s.current_frame).take
      (s.audio_data.length - s.current_frame) = s.audio_data.drop s.current_frame := by
    apply List.take_of_length_le
    rw [hdroplen]
  have hrem : s.audio_data.length - s.current_frame < frames := by omega
  constructor
  · simp [zeros, hdroplen]
    omega
  · unfold audio_callback
    rw [if_pos ⟨h1, h2⟩]
    simp only [hend, htake, hdroplen, if_pos hrem, le_refl, if_true]

/-- Witness for C9: buffer of 3 frames, cursor at 1, 4 frames requested. -/
theorem playback_final_window_witness :
    ((true : Bool) = true ∧ (1 : ℕ) < 3 ∧ (3 : ℕ) < 1 + 4) ∧
    ((([((1 : ℚ), 0), ((0 : ℚ), 1), ((1 : ℚ), 1)] : Block).drop 1 ++
        zeros (4 - (3 - 1))).length = 4 ∧
      audio_callback [] safety_limiter_model
          ⟨true, 1, [((1 : ℚ), 0), ((0 : ℚ), 1), ((1 : ℚ), 1)], []⟩ 4 =
        (⟨false, 3, [((1 : ℚ), 0), ((0 : ℚ), 1), ((1 : ℚ), 1)],
            [[((0 : ℚ), 1), ((1 : ℚ), 1)]]⟩,
         [((0 : ℚ), 1), ((1 : ℚ), 1), ((0 : ℚ), 0), ((0 : ℚ), 0)])) :=
  ⟨⟨rfl, by decide, by decide⟩,
    playback_final_window [] safety_limiter_model
      ⟨true, 1, [((1 : ℚ), 0), ((0 : ℚ), 1), ((1 : ℚ), 1)], []⟩ 4
      rfl (by decide) (by decide)⟩

/-- C10: after start the cursor is 0 and within the buffer; every callback
invocation leaves the buffer unchanged, never moves the cursor backwards,
keeps it within the buffer, clears the running flag once the cursor has
reached the buffer end, and once the cursor is at the buffer end writes
silence and appends nothing to the accumulation. -/
theorem playback_invariant (board : List Stage) (limiter : Stage)
    (data : Block) (s : PBState) (frames : ℕ) :
    (start_state data).current_frame = 0 ∧
    (start_state data).current_frame ≤ (start_state data).audio_data.length ∧
    (audio_callback board limiter s frames).1.audio_data = s.audio_data ∧
    s.current_frame ≤ (audio_callback board limiter s frames).1.current_frame ∧
    (s.current_frame ≤ s.audio_data.length →
      (audio_callback board limiter s frames).1.current_frame ≤ s.audio_data.length) ∧
    (s.audio_data.length ≤ (audio_callback board limiter s frames).1.current_frame →
      (audio_callback board limiter s frames).1.is_running = false) ∧
    (s.audio_data.length ≤ s.current_frame →
      (audio_callback board limiter s frames).2 = zeros frames ∧
      (audio_callback board limiter s frames).1.recorded = s.recorded) := by
  refine ⟨rfl, Nat.zero_le _, ?_⟩
  unfold audio_callback
  by_cases hg : s.is_running = true ∧ s.current_frame < s.audio_data.length
  · rw [if_pos hg]
    simp only
    refine ⟨trivial, ?_, ?_, ?_, ?_⟩
    · omega
    · intro h
      omega
    · intro h
      rw [if_pos h]
    · intro h
      omega
  · rw [if_neg hg]
    simp only
    refine ⟨trivial, le_refl _, fun h => h, ?_, fun _ => ⟨trivial, trivial⟩⟩
    intro h
    rw [if_pos h]

/-- Witness for C10: a completed session (cursor at the buffer end) stays at
the end, reports not running, writes silence and appends nothing. -/
theorem playback_invariant_witness :
    (start_state [((1 : ℚ), 1), ((2 : ℚ), 0)]).current_frame = 0 ∧
    (audio_callback [] safety_limiter_model
        ⟨false, 2, [((1 : ℚ), 1), ((2 : ℚ), 0)], [[((5 : ℚ), 5)]]⟩ 3).1.audio_data =
      (⟨false, 2, [((1 : ℚ), 1), ((2 : ℚ), 0)], [[((5 : ℚ), 5)]]⟩ : PBState).audio_data ∧
    (audio_callback [] safety_limiter_model
        ⟨false, 2, [((1 : ℚ), 1), ((2 : ℚ), 0)], [[((5 : ℚ), 5)]]⟩ 3).1.current_frame ≤ 2 ∧
    (audio_callback [] safety_limiter_model
        ⟨false, 2, [((1 : ℚ), 1), ((2 : ℚ), 0)], [[((5 : ℚ), 5)]]⟩ 3).1.is_running = false ∧
    (audio_callback [] safety_limiter_model
        ⟨false, 2, [((1 : ℚ), 1), ((2 : ℚ), 0)], [[((5 : ℚ), 5)]]⟩ 3).2 = zeros 3 ∧
    (audio_callback [] safety_limiter_model
        ⟨false, 2, [((1 : ℚ), 1), ((2 : ℚ), 0)], [[((5 : ℚ), 5)]]⟩ 3).1.recorded =
      (⟨false, 2, [((1 : ℚ), 1), ((2 : ℚ), 0)], [[((5 : ℚ), 5)]]⟩ : PBState).recorded := by
  have h := playback_invariant [] safety_limiter_model [((1 : ℚ), 1), ((2 : ℚ), 0)]
    ⟨false, 2, [((1 : ℚ), 1), ((2 : ℚ), 0)], [[((5 : ℚ), 5)]]⟩ 3
  exact ⟨h.1, h.2.2.1, h.2.2.2.2.1 (by decide),
    h.2.2.2.2.2.1 (by decide), h.2.2.2.2.2.2 (by decide)⟩

end PedalBoard
